import Mathlib

/-!
Verification development for the console-assistant repository
(`homework_01.py`): address book with ID reuse, validated fields,
birthday arithmetic, search, notebook with tags, and persistence.

Python values and semantics are embedded shallowly:
mutable objects become explicit state passing, Python exceptions become
`Except` errors, and Python `None` / strings / ints returned dynamically
from one function become an explicit sum type.  Python object *identity*
(relevant because `Field` subclasses define no `__eq__`, so `list.remove`
compares by identity) is modelled by tagging each field object with an
`oid : ℕ`.
-/

namespace Homework

/-- Python's substring operator `needle in hay` on strings. -/
def strContains (hay needle : String) : Bool :=
  decide (needle.toList <:+: hay.toList)

/-- Python `str.lower()` (ASCII case mapping). -/
def pyLower (s : String) : String := ⟨s.toList.map Char.toLower⟩

/-! ### PhoneNumber.validate_phone

The source compiles `r"^\d{9}$"` and tests `pattern.match(value)`.
We embed the regex operationally under Python `re` semantics:
`^` anchors at the start (as `re.match` does), `\d` on a `str` pattern
matches any *Unicode decimal digit* (category Nd, so e.g. fullwidth or
Arabic-Indic digits match, not only ASCII `0`-`9`), `{9}` consumes nine
of them, and `$` matches at the end of the string *or just before a
trailing newline at the end* (Python's documented `$` behaviour). -/

/-- The code-point ranges of the Unicode general category Nd (decimal
digit), Unicode 14.0 as bundled with CPython 3.11.  Every range is one
run of ten digits of a script, except the mathematical digits block
`(120782, 120831)`. -/
def ndRanges : List (ℕ × ℕ) :=
  [(48, 57), (1632, 1641), (1776, 1785), (1984, 1993), (2406, 2415),
   (2534, 2543), (2662, 2671), (2790, 2799), (2918, 2927), (3046, 3055),
   (3174, 3183), (3302, 3311), (3430, 3439), (3558, 3567), (3664, 3673),
   (3792, 3801), (3872, 3881), (4160, 4169), (4240, 4249), (6112, 6121),
   (6160, 6169), (6470, 6479), (6608, 6617), (6784, 6793), (6800, 6809),
   (6992, 7001), (7088, 7097), (7232, 7241), (7248, 7257),
   (42528, 42537), (43216, 43225), (43264, 43273), (43472, 43481),
   (43504, 43513), (43600, 43609), (44016, 44025), (65296, 65305),
   (66720, 66729), (68912, 68921), (69734, 69743), (69872, 69881),
   (69942, 69951), (70096, 70105), (70384, 70393), (70736, 70745),
   (70864, 70873), (71248, 71257), (71360, 71369), (71472, 71481),
   (71904, 71913), (72016, 72025), (72784, 72793), (73040, 73049),
   (73120, 73129), (92768, 92777), (92864, 92873), (93008, 93017),
   (120782, 120831), (123200, 123209), (123632, 123641),
   (125264, 125273), (130032, 130041)]

/-- Python regex `\d` on a `str` pattern: the character's Unicode
category is Nd. -/
def isDigitNd (c : Char) : Bool :=
  ndRanges.any (fun p => p.1 ≤ c.toNat && c.toNat ≤ p.2)

/-- Python regex `$`: succeeds on the empty remainder or on a single
trailing newline. -/
def dollarMatches : List Char → Bool
  | [] => true
  | [c] => c == '\n'
  | _ => false

/-- Consume `n` characters matching `\d`, then require `$` on the
remainder. -/
def matchDigits : ℕ → List Char → Bool
  | 0, rest => dollarMatches rest
  | _ + 1, [] => false
  | n + 1, c :: cs => isDigitNd c && matchDigits n cs

/-- `PhoneNumber.validate_phone`: `re.match(r"^\d{9}$", value) is not None`. -/
def validate_phone (value : String) : Bool :=
  matchDigits 9 value.toList

/-! ### Fields and Records -/

/-- A `Field` object (PhoneNumber / EmailAddress): its `.value` string and
its Python object identity `oid`.  Two distinct objects with equal values
are *not* `==` in Python since `Field` defines no `__eq__`. -/
structure PyField where
  value : String
  oid : ℕ
deriving DecidableEq, Repr

/-- Python `a == b` for `Field` objects: default `object.__eq__`, i.e.
identity. -/
def pyEq (a b : PyField) : Bool := a.oid == b.oid

/-- A contact `Record`.  `name` is the `Name` field's `.value`;
`birthdate` is the `BirthDate` field's `.value` string (`none` models
Python `None` / a missing birthdate object); `address` is the rendered
`Address.value`. -/
structure Record where
  id : Option ℕ
  name : String
  phone_numbers : List PyField
  email_addresses : List PyField
  birthdate : Option String
  address : Option String
deriving DecidableEq, Repr

/-- Python `list.remove(x)`: drop the first element `== x` (identity for
`Field` objects), or raise `ValueError` when none is. -/
def listRemove (p : PyField) : List PyField → Except String (List PyField)
  | [] => .error "ValueError"
  | x :: xs =>
    if pyEq x p then .ok xs
    else (listRemove p xs).map (fun l => x :: l)

/-- `Record.remove_phone_number`: `self.phone_numbers.remove(phone_number)`. -/
def remove_phone_number (r : Record) (p : PyField) : Except String Record :=
  (listRemove p r.phone_numbers).map
    (fun l => { r with phone_numbers := l })

/-- `Record.remove_email_address`: `self.email_addresses.remove(email_address)`. -/
def remove_email_address (r : Record) (e : PyField) : Except String Record :=
  (listRemove e r.email_addresses).map
    (fun l => { r with email_addresses := l })

/-! ### Calendar arithmetic and `Record.days_to_birthdate`

The source parses the stored birthdate with
`datetime.strptime(value, "%Y-%m-%d")`, rewrites its year with
`bday.replace(year=today.year)` (which raises `ValueError` when the
month/day does not exist in the target year, i.e. Feb 29 in a non-leap
year), compares against `datetime.now()` (which carries a time of day),
and returns `(next_birthday - today).days` — a floor division of the
microsecond difference by one day. -/

/-- Gregorian leap-year test. -/
def isLeap (y : ℕ) : Bool :=
  (y % 4 == 0 && y % 100 != 0) || y % 400 == 0

/-- Number of days in month `m` of year `y`. -/
def daysInMonth (y m : ℕ) : ℕ :=
  if m = 2 then (if isLeap y then 29 else 28)
  else if m = 4 ∨ m = 6 ∨ m = 9 ∨ m = 11 then 30
  else 31

/-- Days in year `y` strictly before month `m`. -/
def daysBeforeMonth (y m : ℕ) : ℕ :=
  (List.range (m - 1)).foldl (fun a i => a + daysInMonth y (i + 1)) 0

/-- Proleptic Gregorian day number (`date.toordinal` in Python): day 1 is
0001-01-01. -/
def rataDie (y m d : ℕ) : ℕ :=
  365 * (y - 1) + (y - 1) / 4 - (y - 1) / 100 + (y - 1) / 400 +
    daysBeforeMonth y m + d

/-- Numeric value of a digit character. -/
def digitVal (c : Char) : ℕ := c.toNat - 48

/-- `datetime.strptime(s, "%Y-%m-%d")`, restricted to the zero-padded
form the program itself writes and reads: four digits, dash, two digits,
dash, two digits, denoting an existing Gregorian date with year ≥ 1.
Returns `none` where Python raises `ValueError`. -/
def parseYMD (s : String) : Option (ℕ × ℕ × ℕ) :=
  match s.toList with
  | [y1, y2, y3, y4, h1, m1, m2, h2, d1, d2] =>
    if y1.isDigit && y2.isDigit && y3.isDigit && y4.isDigit &&
        h1 == '-' && m1.isDigit && m2.isDigit && h2 == '-' &&
        d1.isDigit && d2.isDigit then
      let y := ((digitVal y1 * 10 + digitVal y2) * 10 + digitVal y3) * 10 +
        digitVal y4
      let m := digitVal m1 * 10 + digitVal m2
      let d := digitVal d1 * 10 + digitVal d2
      if 1 ≤ y ∧ 1 ≤ m ∧ m ≤ 12 ∧ 1 ≤ d ∧ d ≤ daysInMonth y m then
        some (y, m, d)
      else none
    else none
  | _ => none

/-- `datetime.now()`: a calendar date plus the microseconds elapsed since
local midnight. -/
structure PyDateTime where
  year : ℕ
  month : ℕ
  day : ℕ
  us : ℕ
deriving DecidableEq, Repr

/-- A dynamic Python value as returned by `days_to_birthdate`:
a message string, an integer day count, or `None`.  (The code never
actually returns `None`; the constructor exists to state specification
claims about `None`.) -/
inductive PyVal
  | str (s : String)
  | int (n : ℤ)
  | pynone
deriving DecidableEq, Repr

/-- Microseconds in one day. -/
def usPerDay : ℤ := 86400000000

/-- `Record.days_to_birthdate`, evaluated at an explicit `now`
(the source reads `datetime.now()`).  Python exceptions become
`Except.error`. -/
def days_to_birthdate (r : Record) (now : PyDateTime) : Except String PyVal :=
  match r.birthdate with
  | none => .ok (.str "Brak daty urodzenia")
  | some v =>
    if v = "" then .ok (.str "Brak daty urodzenia")
    else
      match parseYMD v with
      | none => .error "ValueError"
      | some (_, bm, bd) =>
        -- next_birthday = bday.replace(year=today.year)
        if bd ≤ daysInMonth now.year bm then
          let nb1 : ℕ := rataDie now.year bm bd
          let todayRd : ℕ := rataDie now.year now.month now.day
          -- `today > next_birthday` compares full datetimes
          if todayRd > nb1 ∨ (todayRd = nb1 ∧ 0 < now.us) then
            -- next_birthday = next_birthday.replace(year=today.year + 1)
            if bd ≤ daysInMonth (now.year + 1) bm then
              let nb2 : ℕ := rataDie (now.year + 1) bm bd
              .ok (.int (Int.fdiv (((nb2 : ℤ) - (todayRd : ℤ)) * usPerDay -
                (now.us : ℤ)) usPerDay))
            else .error "ValueError"
          else
            .ok (.int (Int.fdiv (((nb1 : ℤ) - (todayRd : ℤ)) * usPerDay -
              (now.us : ℤ)) usPerDay))
        else .error "ValueError"

/-! ### AddressBook

Python `dict` preserves insertion order, so `data` is an insertion-ordered
association list.  `free_ids` is a Python `set`, modelled as a `Finset`. -/

/-- Python `d[k] = v` on a dict: replace the value in place when the key
is present (keeping its position), else append a new binding. -/
def dictInsert {κ ν : Type} [DecidableEq κ] (l : List (κ × ν)) (k : κ)
    (v : ν) : List (κ × ν) :=
  if l.any (fun p => decide (p.1 = k)) then
    l.map (fun p => if p.1 = k then (k, v) else p)
  else l ++ [(k, v)]

/-- Python `min(s)` on a set of naturals (only ever used on a non-empty
set in the source; the default is irrelevant there). -/
def finMin (s : Finset ℕ) : ℕ := s.min.untop' 0

/-- Structural worker for the `while` loop of `AddressBook.add_record`:
`g` is an upper bound on the remaining iterations, chosen large enough in
`advanceNextId` that the loop always exits before `g` runs out. -/
def advanceAux (keys : List ℕ) (free : Finset ℕ) : ℕ → ℕ → ℕ
  | 0, n => n
  | g + 1, n =>
    if n ∈ keys ∨ n ∈ free then advanceAux keys free g (n + 1) else n

/-- The `while self.next_id in self.data or self.next_id in self.free_ids:
self.next_id += 1` loop of `AddressBook.add_record`: the first `m ≥ n`
that is neither a live key nor a freed id. -/
def advanceNextId (keys : List ℕ) (free : Finset ℕ) (n : ℕ) : ℕ :=
  advanceAux keys free (keys.foldr max (free.sup id) + 1 - n) n

structure AddressBook where
  data : List (ℕ × Record)
  next_id : ℕ
  free_ids : Finset ℕ
deriving DecidableEq

/-- `AddressBook.__init__`: empty dict, `next_id = 1`, `free_ids = set()`. -/
def emptyBook : AddressBook := { data := [], next_id := 1, free_ids := ∅ }

/-- `AddressBook.add_record`: advance `next_id` past used ids, then assign
`min(free_ids)` when `free_ids` is non-empty (removing it), else the
advanced `next_id` (then increment it); store the record under its new
id.  Returns the updated book together with the record whose `id` was
mutated. -/
def add_record (b : AddressBook) (r : Record) : AddressBook × Record :=
  let n := advanceNextId (b.data.map Prod.fst) b.free_ids b.next_id
  if b.free_ids.Nonempty then
    let i := finMin b.free_ids
    let r' := { r with id := some i }
    ({ data := dictInsert b.data i r', next_id := n,
       free_ids := b.free_ids.erase i }, r')
  else
    let r' := { r with id := some n }
    ({ data := dictInsert b.data n r', next_id := n + 1,
       free_ids := b.free_ids }, r')

/-- `AddressBook.delete_record_by_id`, after the input prompt has been
parsed to an integer `k`: delete the binding and add `k` to `free_ids`
when present, else report the miss and change nothing. -/
def delete_record_by_id (b : AddressBook) (k : ℕ) : AddressBook :=
  if b.data.any (fun p => decide (p.1 = k)) then
    { data := b.data.filter (fun p => !decide (p.1 = k)),
      next_id := b.next_id,
      free_ids := insert k b.free_ids }
  else b

/-- `AddressBook.find_record`: for each record in insertion order, append
it when the lowered term is a substring of the lowered name (`continue`),
otherwise append it once if any phone value contains the term (`break`)
and once more if any email value contains the term. -/
def find_record (term : String) : List (ℕ × Record) → List Record
  | [] => []
  | (_, r) :: rest =>
    if strContains (pyLower r.name) (pyLower term) then
      r :: find_record term rest
    else
      ((if r.phone_numbers.any (fun p => strContains p.value term) then [r]
        else []) ++
       (if r.email_addresses.any (fun e => strContains e.value term) then [r]
        else [])) ++
      find_record term rest

/-- One user-level mutation of the address book. -/
inductive Op
  | add (r : Record)
  | del (k : ℕ)

def applyOp (b : AddressBook) : Op → AddressBook
  | .add r => (add_record b r).1
  | .del k => delete_record_by_id b k

def applyOps (b : AddressBook) (ops : List Op) : AddressBook :=
  ops.foldl applyOp b

/-- Python `max(self.data)` over the keys of a non-empty dict of
naturals. -/
def maxKey (l : List (ℕ × Record)) : ℕ := (l.map Prod.fst).foldr max 0

/-- Python `self.data.update(data)` of `AddressBook.load`. -/
def dictUpdate (l file : List (ℕ × Record)) : List (ℕ × Record) :=
  file.foldl (fun acc kv => dictInsert acc kv.1 kv.2) l

/-- The method `AddressBook.load` on a successfully unpickled `file`:
merge into `data`, then set `next_id = max(self.data) + 1` when the
merged dict is non-empty.  `free_ids` is not touched. -/
def bookLoad (b : AddressBook) (file : List (ℕ × Record)) : AddressBook :=
  let d := dictUpdate b.data file
  { data := d
    next_id := if d.isEmpty then b.next_id else maxKey d + 1
    free_ids := b.free_ids }

/-- The free function `load_address_book` (the loader the driver actually
calls) on a successfully unpickled `file`: a fresh `AddressBook()` whose
`data` is replaced wholesale — `next_id` stays `1` and `free_ids` stays
empty. -/
def load_address_book (file : List (ℕ × Record)) : AddressBook :=
  { data := file, next_id := 1, free_ids := ∅ }

/-! ### Notebook and Tag -/

/-- A note body: either the plain string stored by `add_note`, or a
Python dict possibly carrying a `"tags"` key with a list of tag strings
(the shape `tag_note` assumes). -/
inductive NoteBody
  | str (s : String)
  | obj (tags : Option (List String))
deriving DecidableEq, Repr

/-- `Notebook.add_note`: store or overwrite.  (`Notebook.data` is a
title-keyed, insertion-ordered dict: `List (String × NoteBody)`.) -/
def add_note (nb : List (String × NoteBody)) (title content : String) :
    List (String × NoteBody) :=
  dictInsert nb title (.str content)

/-- `Notebook.modify_note_content`: overwrite when the title is present,
else report the miss; returns the new mapping and the printed message. -/
def modify_note_content (nb : List (String × NoteBody))
    (title content : String) : List (String × NoteBody) × String :=
  if nb.any (fun p => decide (p.1 = title)) then
    (dictInsert nb title (.str content), "Zaktualizowano notatkę.")
  else (nb, "Nie znaleziono notatki o podanym tytule.")

/-- `Notebook.delete_note`: delete when present, else report the miss. -/
def delete_note (nb : List (String × NoteBody)) (title : String) :
    List (String × NoteBody) × String :=
  if nb.any (fun p => decide (p.1 = title)) then
    (nb.filter (fun p => !decide (p.1 = title)), "Usunięto notatkę.")
  else (nb, "Nie znaleziono notatki o podanym tytule.")

/-- `Tag.tag_note`.  On a missing title: message, no change.  On a dict
body: append to its `"tags"` list, or create `["tag"]`.  On a *string*
body, Python evaluates `"tags" in body` as a substring test and then
either `body["tags"]` (string indexed by a string) or
`body["tags"] = [tag]` (item assignment on a string) — both raise
`TypeError`. -/
def tag_note (nb : List (String × NoteBody)) (title tag : String) :
    Except String (List (String × NoteBody) × String) :=
  match nb.lookup title with
  | none => .ok (nb, "Nie znaleziono notatki o podanym tytule.")
  | some (.str s) =>
    if strContains s "tags" then
      .error "TypeError: string indices must be integers"
    else
      .error "TypeError: str object does not support item assignment"
  | some (.obj none) =>
    .ok (dictInsert nb title (.obj (some [tag])), "Dodano tag do notatki.")
  | some (.obj (some ts)) =>
    .ok (dictInsert nb title (.obj (some (ts ++ [tag]))),
      "Dodano tag do notatki.")

/-! ### Concrete fixtures used in scenario and counterexample theorems -/

/-- A fresh record with the given name and no other data. -/
def mkRec (nm : String) : Record :=
  { id := none, name := nm, phone_numbers := [], email_addresses := [],
    birthdate := none, address := none }

/-- Scenario S1 state: insert three records, delete id 2. -/
def scenarioBook : AddressBook :=
  applyOps emptyBook
    [Op.add (mkRec "R1"), Op.add (mkRec "R2"), Op.add (mkRec "R3"), Op.del 2]

/-- A record whose phone and email values both contain `"501"` while its
name does not. -/
def rX : Record :=
  { id := some 1, name := "Jan", phone_numbers := [⟨"501501501", 10⟩],
    email_addresses := [⟨"jan501@x.pl", 11⟩], birthdate := none,
    address := none }

/-- A record holding the phone object `⟨"111222333", 1⟩`. -/
def rC : Record :=
  { id := some 1, name := "Jan",
    phone_numbers := [⟨"111222333", 1⟩, ⟨"444555666", 2⟩],
    email_addresses := [⟨"jan@x.pl", 3⟩], birthdate := none,
    address := none }

/-- A record with no birthdate. -/
def rNB : Record := mkRec "NoBirthday"

/-- A record with the leap-day birthdate `2000-02-29`. -/
def r29 : Record := { mkRec "Leap" with birthdate := some "2000-02-29" }

/-- A record with birthdate `2000-03-07`. -/
def rM7 : Record := { mkRec "March" with birthdate := some "2000-03-07" }

/-- Persisted data with live keys `{1, 3}`. -/
def d0 : List (ℕ × Record) := [(1, mkRec "A"), (3, mkRec "B")]

/-- A small book whose live keys, `free_ids` and `next_id` are pairwise
disjoint. -/
def wB : AddressBook := { data := [(1, mkRec "A")], next_id := 2, free_ids := {3} }

/-! ### Specification-side definitions (written from the spec, for
comparison with the embedded code) -/

/-- The search criterion as the specification words it: the term is a
case-insensitive substring of the name, or a case-sensitive substring of
some phone value or some email value. -/
def specMatches (term : String) (r : Record) : Prop :=
  strContains (pyLower r.name) (pyLower term) = true ∨
  (∃ p ∈ r.phone_numbers, strContains p.value term = true) ∨
  (∃ e ∈ r.email_addresses, strContains e.value term = true)

/-- How often a matching record is listed: once on a name match, else
once for a phone match plus once for an email match. -/
def specCount (term : String) (r : Record) : ℕ :=
  if strContains (pyLower r.name) (pyLower term) then 1
  else
    (if r.phone_numbers.any (fun p => strContains p.value term) then 1
     else 0) +
    (if r.email_addresses.any (fun e => strContains e.value term) then 1
     else 0)

/-- The reachable-state invariant of the address book: every live key and
every freed id lies strictly below `next_id`. -/
def BookInv (b : AddressBook) : Prop :=
  ∀ k, (k ∈ b.data.map Prod.fst ∨ k ∈ b.free_ids) → k < b.next_id

/-! ## Helper lemmas -/

theorem foldr_max_init_le (l : List ℕ) (i : ℕ) : i ≤ l.foldr max i := by
  induction l with
  | nil => exact le_refl i
  | cons a t ih => exact le_trans ih (le_max_right a _)

theorem le_foldr_max (l : List ℕ) (i n : ℕ) (h : n ∈ l) :
    n ≤ l.foldr max i := by
  induction l with
  | nil => cases h
  | cons a t ih =>
    rcases List.mem_cons.mp h with h | h
    · subst h; exact le_max_left _ _
    · exact le_trans (ih h) (le_max_right _ _)

theorem advanceAux_spec (keys : List ℕ) (free : Finset ℕ) :
    ∀ g n, keys.foldr max (free.sup id) < n + g →
      advanceAux keys free g n ∉ keys ∧ advanceAux keys free g n ∉ free ∧
        n ≤ advanceAux keys free g n := by
  intro g
  induction g with
  | zero =>
    intro n hb
    simp only [advanceAux]
    refine ⟨fun hk => ?_, fun hf => ?_, le_refl n⟩
    · have := le_foldr_max keys (free.sup id) n hk
      omega
    · have := le_trans (@Finset.le_sup ℕ ℕ _ _ free id n hf)
        (foldr_max_init_le keys (free.sup id))
      simp only [id_eq] at this
      omega
  | succ g ih =>
    intro n hb
    rw [advanceAux]
    split
    · have h := ih (n + 1) (by omega)
      exact ⟨h.1, h.2.1, le_trans (Nat.le_succ n) h.2.2⟩
    · rename_i h
      push_neg at h
      exact ⟨h.1, h.2, le_refl n⟩

/-- The loop result is neither live nor freed, and never moves
backwards. -/
theorem advanceNextId_spec (keys : List ℕ) (free : Finset ℕ) (n : ℕ) :
    advanceNextId keys free n ∉ keys ∧ advanceNextId keys free n ∉ free ∧
      n ≤ advanceNextId keys free n :=
  advanceAux_spec keys free _ n (by omega)

/-- When `n` is already fresh the loop does not move. -/
theorem advanceNextId_eq_self (keys : List ℕ) (free : Finset ℕ) (n : ℕ)
    (hk : n ∉ keys) (hf : n ∉ free) : advanceNextId keys free n = n := by
  unfold advanceNextId
  cases h : keys.foldr max (free.sup id) + 1 - n with
  | zero => rfl
  | succ g => rw [advanceAux]; simp [hk, hf]



theorem dollarMatches_iff (r : List Char) :
    dollarMatches r = true ↔ r = [] ∨ r = ['\n'] := by
  match r with
  | [] => simp [dollarMatches]
  | [c] =>
    simp only [dollarMatches, beq_iff_eq]
    constructor
    · intro h; exact Or.inr (by rw [h])
    · rintro (h | h) <;> simp_all
  | a :: b :: t => simp [dollarMatches]

theorem matchDigits_iff (n : ℕ) :
    ∀ l : List Char, matchDigits n l = true ↔
      ∃ d r, l = d ++ r ∧ d.length = n ∧ (∀ c ∈ d, isDigitNd c = true) ∧
        dollarMatches r = true := by
  induction n with
  | zero =>
    intro l
    constructor
    · intro h
      exact ⟨[], l, rfl, rfl, by simp, h⟩
    · rintro ⟨d, r, hl, hd, _, hr⟩
      have hde : d = [] := List.length_eq_zero.mp hd
      subst hde
      simpa [hl] using hr
  | succ n ih =>
    intro l
    cases l with
    | nil =>
      constructor
      · intro h; simp [matchDigits] at h
      · rintro ⟨d, r, hl, hd, _, _⟩
        cases d with
        | nil => simp at hd
        | cons c cs => simp at hl
    | cons c cs =>
      simp only [matchDigits, Bool.and_eq_true, ih]
      constructor
      · rintro ⟨hc, d, r, hl, hd, hdig, hr⟩
        refine ⟨c :: d, r, by simp [hl], by simp [hd], ?_, hr⟩
        intro x hx
        rcases List.mem_cons.mp hx with h | h
        · subst h; exact hc
        · exact hdig x h
      · rintro ⟨d, r, hl, hd, hdig, hr⟩
        cases d with
        | nil => simp at hd
        | cons c2 d2 =>
          have hc2 : c = c2 ∧ cs = d2 ++ r := by
            injection hl with h1 h2
            exact ⟨h1, h2⟩
          refine ⟨hc2.1 ▸ hdig c2 (List.mem_cons_self _ _), d2, r, hc2.2,
            by simpa using hd, fun x hx => hdig x (List.mem_cons_of_mem _ hx),
            hr⟩

/-- C3, counterexample: `"123456789\n"` (nine digits plus a trailing
newline, hence not a string of exactly nine decimal digits) is
nevertheless accepted, because Python `$` also matches just before a
final newline. -/
theorem validate_phone_newline :
    validate_phone "123456789\n" = true ∧
    ¬("123456789\n".toList.length = 9 ∧
      ∀ c ∈ "123456789\n".toList, isDigitNd c = true) := by
  constructor
  · decide
  · decide

/-- C3 (amended): `PhoneNumber` construction succeeds iff the input is
exactly nine Unicode decimal digits (category Nd — ASCII, fullwidth,
Arabic-Indic, …), or nine such digits followed by one trailing newline;
in particular `"123456789"` succeeds — as does the fullwidth
`"５５５５５５５５５"` — while `"12345678"`, `"1234567890"` and
`"12345678a"` fail. -/
theorem validate_phone_spec :
    (∀ s : String, validate_phone s = true ↔
      ((s.toList.length = 9 ∧ ∀ c ∈ s.toList, isDigitNd c = true) ∨
       (∃ t : List Char, s.toList = t ++ ['\n'] ∧ t.length = 9 ∧
         ∀ c ∈ t, isDigitNd c = true))) ∧
    validate_phone "123456789" = true ∧
    validate_phone "５５５５５５５５５" = true ∧
    validate_phone "12345678" = false ∧
    validate_phone "1234567890" = false ∧
    validate_phone "12345678a" = false := by
  refine ⟨fun s => ?_, by decide, by decide, by decide, by decide, by decide⟩
  unfold validate_phone
  rw [matchDigits_iff]
  constructor
  · rintro ⟨d, r, hl, hd, hdig, hr⟩
    rcases (dollarMatches_iff r).mp hr with h | h
    · subst h
      refine Or.inl ⟨?_, ?_⟩
      · rw [hl]; simpa using hd
      · rw [hl]; simpa using hdig
    · subst h
      exact Or.inr ⟨d, hl, hd, hdig⟩
  · rintro (⟨hlen, hdig⟩ | ⟨t, hl, ht, hdig⟩)
    · exact ⟨s.toList, [], by simp, hlen, hdig, rfl⟩
    · exact ⟨t, ['\n'], hl, ht, hdig, rfl⟩

/-- C3 witness: the characterisation applied to the concrete inputs of
the claim. -/
theorem validate_phone_spec_witness :
    validate_phone "123456789" = true :=
  (validate_phone_spec.1 "123456789").mpr (Or.inl (by decide))

/-- C4, counterexample: on a record with no birthdate the code returns
the message string `"Brak daty urodzenia"`, not `None`. -/
theorem days_no_birthdate_not_none :
    days_to_birthdate rNB ⟨2024, 3, 1, 0⟩ = .ok (.str "Brak daty urodzenia") ∧
    days_to_birthdate rNB ⟨2024, 3, 1, 0⟩ ≠ .ok PyVal.pynone := by
  refine ⟨rfl, ?_⟩
  intro h
  rw [show days_to_birthdate rNB ⟨2024, 3, 1, 0⟩ =
    .ok (.str "Brak daty urodzenia") from rfl] at h
  simp at h

/-- C4 (amended): for every record whose birthdate is not set and any
current datetime, `days_to_birthdate` returns the string
`"Brak daty urodzenia"` (instead of the `None` the claim states). -/
theorem days_no_birthdate (r : Record) (now : PyDateTime)
    (h : r.birthdate = none) :
    days_to_birthdate r now = .ok (.str "Brak daty urodzenia") := by
  unfold days_to_birthdate
  rw [h]

/-- C4 witness. -/
theorem days_no_birthdate_witness :
    days_to_birthdate rNB ⟨2024, 3, 1, 0⟩ =
      .ok (.str "Brak daty urodzenia") :=
  days_no_birthdate rNB ⟨2024, 3, 1, 0⟩ rfl

/-- C5: two concrete divergences from the claimed birthday arithmetic.
With birthdate `2000-02-29` and now `2023-03-01` the code raises
`ValueError` (`bday.replace(year=2023)` does not exist) instead of
returning a value in `[0, 366]`; with birthdate `2000-03-07` and now
`2024-03-07 10:00` (the anniversary is today) it returns `364` instead
of `0`, because `datetime.now()` carries a time of day. -/
theorem days_to_birthdate_bug :
    days_to_birthdate r29 ⟨2023, 3, 1, 0⟩ = .error "ValueError" ∧
    days_to_birthdate rM7 ⟨2024, 3, 7, 36000000000⟩ = .ok (.int 364) := by
  exact ⟨rfl, rfl⟩

/-- C6: tagging a note whose body is a plain string raises `TypeError`
(`body["tags"] = [tag]` on a `str`), so the claimed in-place upgrade to
`tags = [tag]` never happens; appending to a body that already carries a
tags list works as claimed. -/
theorem tag_note_bug :
    tag_note [("todo", NoteBody.str "buy milk")] "todo" "work" =
      .error "TypeError: str object does not support item assignment" ∧
    tag_note [("todo", NoteBody.obj (some ["work"]))] "todo" "urgent" =
      .ok ([("todo", NoteBody.obj (some ["work", "urgent"]))],
        "Dodano tag do notatki.") := by
  exact ⟨rfl, rfl⟩


theorem listRemove_error (p : PyField) (l : List PyField)
    (h : ∀ x ∈ l, x.oid ≠ p.oid) : listRemove p l = .error "ValueError" := by
  induction l with
  | nil => rfl
  | cons x xs ih =>
    have hx : pyEq x p = false := by
      simp only [pyEq, beq_eq_false_iff_ne, ne_eq]
      exact h x (List.mem_cons_self _ _)
    simp only [listRemove, hx, Bool.false_eq_true, if_false,
      ih (fun y hy => h y (List.mem_cons_of_mem _ hy))]
    rfl

theorem listRemove_found (p : PyField) :
    ∀ (l1 : List PyField) (x : PyField) (l2 : List PyField),
      x.oid = p.oid → (∀ y ∈ l1, y.oid ≠ p.oid) →
      listRemove p (l1 ++ x :: l2) = .ok (l1 ++ l2) := by
  intro l1
  induction l1 with
  | nil =>
    intro x l2 hx _
    have : pyEq x p = true := by simp [pyEq, hx]
    simp [listRemove, this]
  | cons y ys ih =>
    intro x l2 hx hl
    have hy : pyEq y p = false := by
      simp only [pyEq, beq_eq_false_iff_ne, ne_eq]
      exact hl y (List.mem_cons_self _ _)
    have ih2 := ih x l2 hx (fun z hz => hl z (List.mem_cons_of_mem _ hz))
    simp only [List.cons_append, listRemove, hy, Bool.false_eq_true, if_false,
      List.append_eq, ih2]
    rfl

/-- C8, counterexample: removal goes by Python object identity, not by
value — removing a freshly constructed `PhoneNumber` whose value equals a
stored one raises `ValueError` instead of removing the stored element. -/
theorem remove_phone_by_value_fails :
    remove_phone_number rC ⟨"111222333", 5⟩ = .error "ValueError" ∧
    rC.phone_numbers.map PyField.value = ["111222333", "444555666"] := by
  exact ⟨rfl, rfl⟩

/-- C8 (amended): `remove_phone` / `remove_email` remove the first
element that is the *same object* (Python identity, since `Field`
defines no `__eq__`) as the argument, and raise `ValueError` — leaving
the sequence unchanged — when the argument object itself is not in the
list, even if a value-equal element is. -/
theorem remove_by_identity (r : Record) (p : PyField) :
    ((∀ x ∈ r.phone_numbers, x.oid ≠ p.oid) →
      remove_phone_number r p = .error "ValueError") ∧
    (∀ (l1 : List PyField) (x : PyField) (l2 : List PyField),
      r.phone_numbers = l1 ++ x :: l2 → x.oid = p.oid →
      (∀ y ∈ l1, y.oid ≠ p.oid) →
      remove_phone_number r p = .ok { r with phone_numbers := l1 ++ l2 }) ∧
    ((∀ x ∈ r.email_addresses, x.oid ≠ p.oid) →
      remove_email_address r p = .error "ValueError") ∧
    (∀ (l1 : List PyField) (x : PyField) (l2 : List PyField),
      r.email_addresses = l1 ++ x :: l2 → x.oid = p.oid →
      (∀ y ∈ l1, y.oid ≠ p.oid) →
      remove_email_address r p = .ok { r with email_addresses := l1 ++ l2 }) := by
  refine ⟨fun h => ?_, fun l1 x l2 hsplit hx hl => ?_,
    fun h => ?_, fun l1 x l2 hsplit hx hl => ?_⟩
  · unfold remove_phone_number
    rw [listRemove_error p _ h]
    rfl
  · unfold remove_phone_number
    rw [hsplit, listRemove_found p l1 x l2 hx hl]
    rfl
  · unfold remove_email_address
    rw [listRemove_error p _ h]
    rfl
  · unfold remove_email_address
    rw [hsplit, listRemove_found p l1 x l2 hx hl]
    rfl

/-- C8 witness: a value-equal but distinct object raises; the stored
object itself is removed. -/
theorem remove_by_identity_witness :
    remove_phone_number rC ⟨"999999999", 5⟩ = .error "ValueError" ∧
    remove_phone_number rC ⟨"111222333", 1⟩ =
      .ok { rC with phone_numbers := [⟨"444555666", 2⟩] } := by
  constructor
  · exact (remove_by_identity rC ⟨"999999999", 5⟩).1 (by decide)
  · exact (remove_by_identity rC ⟨"111222333", 1⟩).2.1 []
      ⟨"111222333", 1⟩ [⟨"444555666", 2⟩] rfl rfl (by simp)

/-- C10: modifying or deleting a note under a title that is not present
leaves the notebook mapping unchanged and only reports the miss. -/
theorem notebook_miss_no_mutation (nb : List (String × NoteBody))
    (title content : String) (h : ∀ p ∈ nb, p.1 ≠ title) :
    modify_note_content nb title content =
      (nb, "Nie znaleziono notatki o podanym tytule.") ∧
    delete_note nb title =
      (nb, "Nie znaleziono notatki o podanym tytule.") := by
  have hany : nb.any (fun p => decide (p.1 = title)) = false := by
    rw [List.any_eq_false]
    intro p hp
    simpa using h p hp
  rw [modify_note_content, delete_note, hany]
  simp

/-- C10 witness. -/
theorem notebook_miss_no_mutation_witness :
    modify_note_content [("a", NoteBody.str "x")] "b" "y" =
      ([("a", NoteBody.str "x")], "Nie znaleziono notatki o podanym tytule.") ∧
    delete_note [("a", NoteBody.str "x")] "b" =
      ([("a", NoteBody.str "x")], "Nie znaleziono notatki o podanym tytule.") :=
  notebook_miss_no_mutation [("a", NoteBody.str "x")] "b" "y" (by decide)

/-- C7, counterexample: the loader the driver actually calls,
`load_address_book`, leaves `next_id = 1` on the non-empty loaded data
`{1 ↦ A, 3 ↦ B}` instead of `max(live keys) + 1 = 4`. -/
theorem load_next_id_counterexample :
    (load_address_book d0).next_id ≠ maxKey (load_address_book d0).data + 1 ∧
    (load_address_book d0).next_id = 1 ∧
    maxKey (load_address_book d0).data = 3 := by
  refine ⟨?_, rfl, by decide⟩
  decide

/-- C7 (amended): after a successful load `free_ids` is empty either
way, but only the method `AddressBook.load` (on a fresh book) resets
`next_id` to `max(live keys) + 1` (or leaves it `1` when the loaded data
is empty); the driver's loader `load_address_book` leaves `next_id = 1`
regardless of the loaded keys. -/
theorem load_next_id (file : List (ℕ × Record)) :
    ((load_address_book file).next_id = 1 ∧
     (load_address_book file).free_ids = ∅ ∧
     (load_address_book file).data = file) ∧
    ((bookLoad emptyBook file).free_ids = ∅ ∧
     ((bookLoad emptyBook file).data.isEmpty = true →
        (bookLoad emptyBook file).next_id = 1) ∧
     ((bookLoad emptyBook file).data.isEmpty = false →
        (bookLoad emptyBook file).next_id =
          maxKey (bookLoad emptyBook file).data + 1)) := by
  refine ⟨⟨rfl, rfl, rfl⟩, ?_, ?_, ?_⟩
  · rfl
  · intro h
    unfold bookLoad at h ⊢
    simp only at h ⊢
    rw [h]
    rfl
  · intro h
    unfold bookLoad at h ⊢
    simp only at h ⊢
    rw [h]
    rfl

/-- C7 witness: the two loaders on the concrete data `{1 ↦ A, 3 ↦ B}`. -/
theorem load_next_id_witness :
    (load_address_book d0).free_ids = ∅ ∧
    (bookLoad emptyBook d0).next_id =
      maxKey (bookLoad emptyBook d0).data + 1 := by
  constructor
  · exact (load_next_id d0).1.2.1
  · exact (load_next_id d0).2.2.2 (by decide)


theorem specCount_ne_zero (term : String) (r : Record) :
    specCount term r ≠ 0 ↔ specMatches term r := by
  unfold specCount specMatches
  simp only [← List.any_eq_true]
  by_cases h1 : strContains (pyLower r.name) (pyLower term) = true <;>
    by_cases h2 :
        r.phone_numbers.any (fun p => strContains p.value term) = true <;>
      by_cases h3 :
          r.email_addresses.any (fun e => strContains e.value term) = true <;>
        simp [h1, h2, h3]

theorem find_record_eq (term : String) (l : List (ℕ × Record)) :
    find_record term l =
      (l.map Prod.snd).flatMap
        (fun r => List.replicate (specCount term r) r) := by
  induction l with
  | nil => rfl
  | cons p rest ih =>
    cases p with
    | mk k r =>
      by_cases h1 : strContains (pyLower r.name) (pyLower term) = true
      · simp [find_record, specCount, h1, ih, List.replicate]
      · by_cases h2 :
            r.phone_numbers.any (fun p => strContains p.value term) = true <;>
          by_cases h3 :
              r.email_addresses.any (fun e => strContains e.value term) =
                true <;>
            simp only [List.any_eq_true] at h2 h3 <;>
            simp [find_record, specCount, h1, h2, h3, ih, List.replicate]

/-- C2, counterexample: a record whose phone *and* email both contain the
term (while the name does not) is returned twice by `find_record`, so a
matching record can appear more than once. -/
theorem find_record_duplicate :
    find_record "501" [(1, rX)] = [rX, rX] ∧
    ¬(find_record "501" [(1, rX)]).Nodup := by
  exact ⟨by decide, by decide⟩

/-- C2 (amended): `find_record` returns, in insertion order, exactly the
records for which the term matches the name case-insensitively or some
phone or email value case-sensitively; a record matching the name
appears once, and otherwise it appears once for a phone match plus once
for an email match — so a record matching both a phone and an email (but
not the name) appears twice. -/
theorem find_record_spec (term : String) (l : List (ℕ × Record)) :
    find_record term l =
      (l.map Prod.snd).flatMap
        (fun r => List.replicate (specCount term r) r) ∧
    ∀ r : Record,
      r ∈ find_record term l ↔ ∃ p ∈ l, p.2 = r ∧ specMatches term r := by
  refine ⟨find_record_eq term l, fun r => ?_⟩
  rw [find_record_eq term l]
  simp only [List.mem_flatMap, List.mem_map, List.mem_replicate]
  constructor
  · rintro ⟨r2, ⟨p, hp, rfl⟩, hcnt, rfl⟩
    exact ⟨p, hp, rfl, (specCount_ne_zero term p.2).mp hcnt⟩
  · rintro ⟨p, hp, rfl, hm⟩
    exact ⟨p.2, ⟨p, hp, rfl⟩, (specCount_ne_zero term p.2).mpr hm, rfl⟩

/-- C2 witness: the characterisation applied to the concrete
one-record book. -/
theorem find_record_spec_witness :
    rX ∈ find_record "501" [(1, rX)] :=
  ((find_record_spec "501" [(1, rX)]).2 rX).mpr
    ⟨(1, rX), by decide, rfl,
      Or.inr (Or.inl ⟨⟨"501501501", 10⟩, by decide, by decide⟩)⟩


theorem any_key_eq_false {κ ν : Type} [DecidableEq κ] {l : List (κ × ν)}
    {k : κ} (h : k ∉ l.map Prod.fst) :
    l.any (fun p => decide (p.1 = k)) = false := by
  rw [List.any_eq_false]
  intro p hp hk
  rw [decide_eq_true_eq] at hk
  exact h (List.mem_map.mpr ⟨p, hp, hk⟩)

theorem dictInsert_not_mem {κ ν : Type} [DecidableEq κ] {l : List (κ × ν)}
    {k : κ} {v : ν} (h : k ∉ l.map Prod.fst) :
    dictInsert l k v = l ++ [(k, v)] := by
  unfold dictInsert
  rw [any_key_eq_false h]
  simp

theorem dictInsert_keys {κ ν : Type} [DecidableEq κ] {l : List (κ × ν)}
    {k k0 : κ} {v : ν} (h : k ∈ (dictInsert l k0 v).map Prod.fst) :
    k ∈ l.map Prod.fst ∨ k = k0 := by
  unfold dictInsert at h
  by_cases hc : l.any (fun p => decide (p.1 = k0)) = true
  · rw [if_pos hc, List.map_map] at h
    rcases List.mem_map.mp h with ⟨q, hq, hqk⟩
    by_cases hq0 : q.1 = k0
    · right
      simpa [hq0] using hqk.symm
    · left
      simp only [Function.comp, if_neg hq0] at hqk
      exact List.mem_map.mpr ⟨q, hq, hqk⟩
  · rw [if_neg hc, List.map_append] at h
    rcases List.mem_append.mp h with h | h
    · exact Or.inl h
    · right
      simpa using h

theorem filter_keys_subset {l : List (ℕ × Record)} {k0 k : ℕ}
    (h : k ∈ (l.filter (fun p => !decide (p.1 = k0))).map Prod.fst) :
    k ∈ l.map Prod.fst := by
  rcases List.mem_map.mp h with ⟨p, hp, rfl⟩
  exact List.mem_map.mpr ⟨p, List.mem_of_mem_filter hp, rfl⟩

theorem finMin_eq_min (s : Finset ℕ) (h : s.Nonempty) :
    finMin s = s.min' h := by
  unfold finMin
  rw [← Finset.coe_min' h]
  rfl

theorem finMin_mem {s : Finset ℕ} (h : s.Nonempty) : finMin s ∈ s := by
  rw [finMin_eq_min s h]
  exact s.min'_mem h

theorem add_record_nonempty {b : AddressBook} (hne : b.free_ids.Nonempty)
    (r : Record) :
    add_record b r =
      ({ data := dictInsert b.data (finMin b.free_ids)
           { r with id := some (finMin b.free_ids) },
         next_id := advanceNextId (b.data.map Prod.fst) b.free_ids b.next_id,
         free_ids := b.free_ids.erase (finMin b.free_ids) },
       { r with id := some (finMin b.free_ids) }) := by
  simp [add_record, hne]

theorem add_record_empty {b : AddressBook} (hne : ¬b.free_ids.Nonempty)
    (r : Record) :
    add_record b r =
      ({ data :=
           dictInsert b.data
             (advanceNextId (b.data.map Prod.fst) b.free_ids b.next_id)
             { r with
               id := some
                 (advanceNextId (b.data.map Prod.fst) b.free_ids b.next_id) },
         next_id :=
           advanceNextId (b.data.map Prod.fst) b.free_ids b.next_id + 1,
         free_ids := b.free_ids },
       { r with
         id := some
           (advanceNextId (b.data.map Prod.fst) b.free_ids b.next_id) }) := by
  simp [add_record, hne]

theorem bookInv_empty : BookInv emptyBook := by
  intro k hk
  rcases hk with hk | hk
  · simp [emptyBook] at hk
  · simp [emptyBook] at hk

theorem advance_eq_of_inv {b : AddressBook} (hinv : BookInv b) :
    advanceNextId (b.data.map Prod.fst) b.free_ids b.next_id = b.next_id := by
  apply advanceNextId_eq_self
  · intro hk
    exact absurd (hinv _ (Or.inl hk)) (lt_irrefl _)
  · intro hf
    exact absurd (hinv _ (Or.inr hf)) (lt_irrefl _)

theorem bookInv_applyOp {b : AddressBook} (hinv : BookInv b) (op : Op) :
    BookInv (applyOp b op) := by
  cases op with
  | add r =>
    have hadv := advance_eq_of_inv hinv
    show BookInv (add_record b r).1
    by_cases hne : b.free_ids.Nonempty
    · rw [add_record_nonempty hne r]
      intro k hk
      show k < advanceNextId (b.data.map Prod.fst) b.free_ids b.next_id
      rw [hadv]
      rcases hk with hk | hk
      · rcases dictInsert_keys hk with hk | rfl
        · exact hinv _ (Or.inl hk)
        · exact hinv _ (Or.inr (finMin_mem hne))
      · exact hinv _ (Or.inr (Finset.mem_of_mem_erase hk))
    · rw [add_record_empty hne r]
      intro k hk
      show k < advanceNextId (b.data.map Prod.fst) b.free_ids b.next_id + 1
      rw [hadv] at hk ⊢
      rcases hk with hk | hk
      · rcases dictInsert_keys hk with hk | rfl
        · exact lt_trans (hinv _ (Or.inl hk)) (Nat.lt_succ_self _)
        · exact Nat.lt_succ_self _
      · exact lt_trans (hinv _ (Or.inr hk)) (Nat.lt_succ_self _)
  | del k0 =>
    show BookInv (delete_record_by_id b k0)
    unfold delete_record_by_id
    by_cases hc : b.data.any (fun p => decide (p.1 = k0)) = true
    · rw [if_pos hc]
      intro k hk
      rcases hk with hk | hk
      · exact hinv _ (Or.inl (filter_keys_subset hk))
      · rcases Finset.mem_insert.mp hk with rfl | hk
        · rcases List.any_eq_true.mp hc with ⟨p, hp, hpk⟩
          rw [decide_eq_true_eq] at hpk
          exact hinv _ (Or.inl (List.mem_map.mpr ⟨p, hp, hpk⟩))
        · exact hinv _ (Or.inr hk)
    · rw [if_neg hc]
      exact hinv

theorem bookInv_applyOps (ops : List Op) :
    ∀ b, BookInv b → BookInv (applyOps b ops) := by
  induction ops with
  | nil => intro b h; exact h
  | cons op rest ih =>
    intro b h
    exact ih _ (bookInv_applyOp h op)

theorem next_id_mono_op (b : AddressBook) (op : Op) :
    b.next_id ≤ (applyOp b op).next_id := by
  cases op with
  | add r =>
    have hn := (advanceNextId_spec (b.data.map Prod.fst) b.free_ids
      b.next_id).2.2
    show b.next_id ≤ (add_record b r).1.next_id
    by_cases hne : b.free_ids.Nonempty
    · rw [add_record_nonempty hne r]
      exact hn
    · rw [add_record_empty hne r]
      exact le_trans hn (Nat.le_succ _)
  | del k0 =>
    show b.next_id ≤ (delete_record_by_id b k0).next_id
    unfold delete_record_by_id
    by_cases hc : b.data.any (fun p => decide (p.1 = k0)) = true
    · rw [if_pos hc]
    · rw [if_neg hc]

theorem next_id_mono (b : AddressBook) (ops : List Op) :
    b.next_id ≤ (applyOps b ops).next_id := by
  induction ops generalizing b with
  | nil => exact le_refl _
  | cons op rest ih =>
    exact le_trans (next_id_mono_op b op) (ih (applyOp b op))

/-- C1: on every book reachable from a fresh `AddressBook` by inserts
and deletes, the next insert assigns `min(free_ids)` when `free_ids` is
non-empty and `next_id` otherwise; `next_id` never decreases under any
insert or delete; and in the concrete scenario the ids come out
1, 2, 3, then (after deleting 2) 2 and finally 4. -/
theorem id_allocation (ops : List Op) (r : Record) :
    ((applyOps emptyBook ops).free_ids = ∅ →
      (add_record (applyOps emptyBook ops) r).2.id =
        some (applyOps emptyBook ops).next_id) ∧
    ((applyOps emptyBook ops).free_ids.Nonempty →
      (add_record (applyOps emptyBook ops) r).2.id =
        some (finMin (applyOps emptyBook ops).free_ids)) ∧
    (∀ (b : AddressBook) (tail : List Op),
      b.next_id ≤ (applyOps b tail).next_id) ∧
    ((add_record emptyBook (mkRec "R1")).2.id = some 1 ∧
     (add_record (applyOps emptyBook [Op.add (mkRec "R1")])
        (mkRec "R2")).2.id = some 2 ∧
     (add_record (applyOps emptyBook [Op.add (mkRec "R1"),
        Op.add (mkRec "R2")]) (mkRec "R3")).2.id = some 3 ∧
     (add_record scenarioBook (mkRec "R4")).2.id = some 2 ∧
     (add_record (add_record scenarioBook (mkRec "R4")).1
        (mkRec "R5")).2.id = some 4) := by
  have hinv := bookInv_applyOps ops emptyBook bookInv_empty
  refine ⟨fun hemp => ?_, fun hne => ?_, next_id_mono, by decide, by decide,
    by decide, by decide, by decide⟩
  · have hne : ¬(applyOps emptyBook ops).free_ids.Nonempty := by
      rw [hemp]
      exact Finset.not_nonempty_empty
    rw [add_record_empty hne r]
    show some (advanceNextId ((applyOps emptyBook ops).data.map Prod.fst)
      (applyOps emptyBook ops).free_ids (applyOps emptyBook ops).next_id) =
      some (applyOps emptyBook ops).next_id
    rw [advance_eq_of_inv hinv]
  · rw [add_record_nonempty hne r]

/-- C1 witness: the empty-`free_ids` case on the fresh book and the
non-empty case on the scenario book. -/
theorem id_allocation_witness :
    (add_record (applyOps emptyBook []) (mkRec "W")).2.id =
      some (applyOps emptyBook []).next_id ∧
    (add_record scenarioBook (mkRec "W")).2.id =
      some (finMin scenarioBook.free_ids) := by
  constructor
  · exact (id_allocation [] (mkRec "W")).1 rfl
  · exact (id_allocation [Op.add (mkRec "R1"), Op.add (mkRec "R2"),
      Op.add (mkRec "R3"), Op.del 2] (mkRec "W")).2.1 (by decide)

theorem lookup_append_left (l1 l2 : List (ℕ × Record)) (k : ℕ)
    (h : k ∈ l1.map Prod.fst) :
    (l1 ++ l2).lookup k = l1.lookup k := by
  induction l1 with
  | nil => simp at h
  | cons p t ih =>
    cases p with
    | mk k1 v1 =>
      by_cases hk : k = k1
      · subst hk
        simp [List.lookup]
      · have h2 : k ∈ k1 :: t.map Prod.fst := by simpa using h
        rcases List.mem_cons.mp h2 with h3 | h3
        · exact absurd h3 hk
        · have hne : (k == k1) = false := beq_eq_false_iff_ne.mpr hk
          simp only [List.cons_append, List.lookup, hne]
          exact ih h3

/-- C9: when the live keys are disjoint from `free_ids` and from
`next_id`, inserting a fresh record only appends one new binding under a
previously unused id; every existing binding still looks up to the same
record. -/
theorem add_record_frame (b : AddressBook) (r : Record)
    (hdisj : ∀ k ∈ b.data.map Prod.fst, k ∉ b.free_ids)
    (_hnext : b.next_id ∉ b.data.map Prod.fst)
    (_hid : r.id = none) :
    ∃ i, i ∉ b.data.map Prod.fst ∧
      (add_record b r).1.data = b.data ++ [(i, { r with id := some i })] ∧
      ∀ k, k ∈ b.data.map Prod.fst →
        (add_record b r).1.data.lookup k = b.data.lookup k := by
  by_cases hne : b.free_ids.Nonempty
  · refine ⟨finMin b.free_ids, fun hk => hdisj _ hk (finMin_mem hne), ?_, ?_⟩
    · rw [add_record_nonempty hne r]
      exact dictInsert_not_mem (fun hk => hdisj _ hk (finMin_mem hne))
    · intro k hk
      rw [add_record_nonempty hne r]
      rw [dictInsert_not_mem (fun hk2 => hdisj _ hk2 (finMin_mem hne))]
      exact lookup_append_left _ _ k hk
  · have hfresh := (advanceNextId_spec (b.data.map Prod.fst) b.free_ids
      b.next_id).1
    refine ⟨_, hfresh, ?_, ?_⟩
    · rw [add_record_empty hne r]
      exact dictInsert_not_mem hfresh
    · intro k hk
      rw [add_record_empty hne r]
      rw [dictInsert_not_mem hfresh]
      exact lookup_append_left _ _ k hk

/-- C9 witness: a book with one live record, a disjoint freed id, and a
disjoint `next_id`. -/
theorem add_record_frame_witness :
    ∃ i, i ∉ wB.data.map Prod.fst ∧
      (add_record wB (mkRec "W")).1.data =
        wB.data ++ [(i, { mkRec "W" with id := some i })] ∧
      ∀ k, k ∈ wB.data.map Prod.fst →
        (add_record wB (mkRec "W")).1.data.lookup k = wB.data.lookup k :=
  add_record_frame wB (mkRec "W") (by decide) (by decide) rfl

end Homework
